import Mathlib

/-!
Verification of the `magics_diff_simulator` repository.

This file gives a shallow embedding in Lean 4 of the two source modules

* `src/agents/_deep_arm_rbdl.py` — the `Deep_Arm_rbdl` policy-gradient agent
  (parameter update with gradient clipping, feed-forward policy network,
  parameter initialisation, per-step reward/gradient bookkeeping);
* `src/jaxRBDL/Simulator/ObdlRender.py` — the `ObdlRender` kinematic
  visualizer (`transform_rpy`, `transform_pos`, `step_render`, `move_obj`).

Arrays are modelled as lists (a matrix is a list of rows).  The agent's
`update` method performs real-valued arithmetic involving a square root, so
that part is embedded over `ℝ`; the remaining purely rational computations
are embedded over `ℚ` so that concrete instances evaluate by `decide`.
External library functions (numpy's `randn`, pyRBDL's
`CalcBodyToBaseCoordinates`, pybullet's `getQuaternionFromEuler`) are taken
as explicit function parameters of the embedding.
-/

namespace Deep_Arm_rbdl

/-- A weight matrix: a list of rows of reals. -/
abbrev MatR := List (List ℝ)

/-- A `(weight, bias)` pair, as stored in `self.params` / passed to `update`. -/
abbrev PairR := MatR × List ℝ

/-- Sum of squares of the entries of a vector. -/
def sumSq (l : List ℝ) : ℝ := (l.map (fun x => x ^ 2)).sum

/-- Sum of squares of all entries of a matrix (squared Frobenius norm). -/
def frobSq (m : MatR) : ℝ := (m.map sumSq).sum

noncomputable section

/-- Model of `np.linalg.norm` of a matrix: the Frobenius norm. -/
def normM (m : MatR) : ℝ := Real.sqrt (frobSq m)

/-- Model of `np.linalg.norm` of a vector: the Euclidean norm. -/
def normV (l : List ℝ) : ℝ := Real.sqrt (sumSq l)

/-- The accumulation loop of `update`:
`total_norm_sqr += np.linalg.norm(dw) ** 2; total_norm_sqr += np.linalg.norm(db) ** 2`. -/
def total_norm_sqr (grads : List PairR) : ℝ :=
  grads.foldl (fun acc g => acc + normM g.1 ^ 2 + normV g.2 ^ 2) 0

/-- The clipping factor of `update`:
`scale = min(1.0, gradient_clip / (total_norm_sqr**0.5 + 1e-4))` with
`gradient_clip = 0.2`. -/
def clipScale (grads : List PairR) : ℝ :=
  min 1 ((0.2 : ℝ) / (Real.sqrt (total_norm_sqr grads) + 1e-4))

/-- Elementwise `x - c * dx` on vectors (`b - lr * scale * db`). -/
def subScaled (c : ℝ) (x dx : List ℝ) : List ℝ :=
  List.zipWith (fun a da => a - c * da) x dx

/-- Elementwise `w - c * dw` on matrices (`w - lr * scale * dw`). -/
def subScaledM (c : ℝ) (w dw : MatR) : MatR :=
  List.zipWith (subScaled c) w dw

/-- Model of `Deep_Arm_rbdl.update(grads, params, lr)`: computes the total squared
gradient norm, the clip factor `scale`, and returns
`[(w - lr*scale*dw, b - lr*scale*db) for (w, b), (dw, db) in zip(params, grads)]`. -/
def update (grads params : List PairR) (lr : ℝ) : List PairR :=
  (params.zip grads).map
    (fun pg => (subScaledM (lr * clipScale grads) pg.1.1 pg.2.1,
                subScaled (lr * clipScale grads) pg.1.2 pg.2.2))

end

/-- Scaling every gradient entry by `c` (the quantity `lr * scale * g`
that `update` subtracts from the parameters). -/
noncomputable def gradScale (c : ℝ) (grads : List PairR) : List PairR :=
  grads.map (fun g => (g.1.map (List.map (fun x => c * x)), g.2.map (fun x => c * x)))

/-- Gradients that are zero arrays of exactly the shapes of `params`. -/
def zeroGradsFor (params : List PairR) : List PairR :=
  params.map (fun wb => (wb.1.map (List.map (fun _ => (0 : ℝ))), wb.2.map (fun _ => (0 : ℝ))))

/- ### Basic norm lemmas -/

theorem sumSq_nonneg (l : List ℝ) : 0 ≤ sumSq l := by
  induction l with
  | nil => simp [sumSq]
  | cons a t ih =>
      simp only [sumSq, List.map_cons, List.sum_cons]
      have := sq_nonneg a
      simp only [sumSq] at ih
      nlinarith

theorem frobSq_nonneg (m : MatR) : 0 ≤ frobSq m := by
  induction m with
  | nil => simp [frobSq]
  | cons r t ih =>
      simp only [frobSq, List.map_cons, List.sum_cons]
      have := sumSq_nonneg r
      simp only [frobSq] at ih
      linarith

theorem normM_sq (m : MatR) : normM m ^ 2 = frobSq m := by
  simp [normM, Real.sq_sqrt (frobSq_nonneg m)]

theorem normV_sq (l : List ℝ) : normV l ^ 2 = sumSq l := by
  simp [normV, Real.sq_sqrt (sumSq_nonneg l)]

theorem total_norm_sqr_aux (grads : List PairR) (a : ℝ) :
    grads.foldl (fun acc g => acc + normM g.1 ^ 2 + normV g.2 ^ 2) a =
      a + (grads.map (fun g => frobSq g.1 + sumSq g.2)).sum := by
  induction grads generalizing a with
  | nil => simp
  | cons g t ih =>
      rw [List.foldl_cons, ih, List.map_cons, List.sum_cons, normM_sq, normV_sq]
      ring

/-- The quantity `total_norm_sqr` is the sum over all pairs of `‖dw‖² + ‖db‖²`. -/
theorem total_norm_sqr_eq (grads : List PairR) :
    total_norm_sqr grads = (grads.map (fun g => frobSq g.1 + sumSq g.2)).sum := by
  simpa using total_norm_sqr_aux grads 0

theorem total_norm_sqr_nonneg (grads : List PairR) : 0 ≤ total_norm_sqr grads := by
  rw [total_norm_sqr_eq]
  induction grads with
  | nil => simp
  | cons g t ih =>
      simp only [List.map_cons, List.sum_cons]
      have h1 := frobSq_nonneg g.1
      have h2 := sumSq_nonneg g.2
      linarith

theorem clipScale_pos (grads : List PairR) : 0 < clipScale grads := by
  have hs : 0 ≤ Real.sqrt (total_norm_sqr grads) := Real.sqrt_nonneg _
  have hd : (0 : ℝ) < Real.sqrt (total_norm_sqr grads) + 1e-4 := by norm_num; linarith
  have : (0 : ℝ) < (0.2 : ℝ) / (Real.sqrt (total_norm_sqr grads) + 1e-4) := by
    apply div_pos <;> norm_num
    linarith
  simp only [clipScale, lt_min_iff]
  exact ⟨one_pos, this⟩

theorem zip_get? {α β : Type} (as : List α) (bs : List β) (i : ℕ) :
    (as.zip bs).get? i =
      match as.get? i, bs.get? i with
      | some a, some b => some (a, b)
      | _, _ => none := by
  induction as generalizing bs i with
  | nil => cases bs <;> simp
  | cons a t ih =>
      cases bs with
      | nil => simp
      | cons b u =>
          cases i with
          | zero => simp
          | succ j => simpa using ih u j

theorem sumSq_map_mul (c : ℝ) (l : List ℝ) :
    sumSq (l.map (fun x => c * x)) = c ^ 2 * sumSq l := by
  induction l with
  | nil => simp [sumSq]
  | cons a t ih =>
      simp only [sumSq, List.map_cons, List.sum_cons] at ih ⊢
      rw [ih]
      ring

theorem frobSq_map_mul (c : ℝ) (m : MatR) :
    frobSq (m.map (List.map (fun x => c * x))) = c ^ 2 * frobSq m := by
  induction m with
  | nil => simp [frobSq]
  | cons r t ih =>
      simp only [frobSq, List.map_cons, List.sum_cons] at ih ⊢
      rw [ih, sumSq_map_mul]
      ring

theorem total_norm_sqr_gradScale (c : ℝ) (grads : List PairR) :
    total_norm_sqr (gradScale c grads) = c ^ 2 * total_norm_sqr grads := by
  rw [total_norm_sqr_eq, total_norm_sqr_eq]
  induction grads with
  | nil => simp [gradScale]
  | cons g t ih =>
      simp only [gradScale, List.map_cons, List.sum_cons] at ih ⊢
      rw [ih, frobSq_map_mul, sumSq_map_mul]
      ring

theorem subScaled_eq_sub_scaled (c : ℝ) (x dx : List ℝ) :
    subScaled c x dx = List.zipWith (fun a d => a - d) x (dx.map (fun y => c * y)) := by
  rw [List.zipWith_map_right]
  rfl

theorem subScaledM_eq_sub_scaled (c : ℝ) (w dw : MatR) :
    subScaledM c w dw =
      List.zipWith (fun r dr => List.zipWith (fun a d => a - d) r dr) w
        (dw.map (List.map (fun y => c * y))) := by
  simp only [subScaledM, subScaled, List.zipWith_map_right]
  rfl

theorem update_eq_sub_gradScale (c : ℝ) (params grads : List PairR) :
    (params.zip grads).map
        (fun pg => (subScaledM c pg.1.1 pg.2.1, subScaled c pg.1.2 pg.2.2)) =
      List.zipWith
        (fun wb g => (List.zipWith (fun r dr => List.zipWith (fun a d => a - d) r dr) wb.1 g.1,
                      List.zipWith (fun a d => a - d) wb.2 g.2))
        params (gradScale c grads) := by
  induction params generalizing grads with
  | nil => simp [gradScale]
  | cons wb t ih =>
      cases grads with
      | nil => simp [gradScale]
      | cons g u =>
          simp only [gradScale, List.zip_cons_cons, List.map_cons, List.zipWith_cons_cons]
          refine congrArg₂ _ ?_ ?_
          · rw [subScaledM_eq_sub_scaled, subScaled_eq_sub_scaled]
          · simpa [gradScale] using ih u

theorem clipScale_mul_sqrt_lt (grads : List PairR) (hT : 0 < total_norm_sqr grads) :
    clipScale grads * Real.sqrt (total_norm_sqr grads) < 0.2 := by
  have hs : 0 < Real.sqrt (total_norm_sqr grads) := Real.sqrt_pos.mpr hT
  set s := Real.sqrt (total_norm_sqr grads) with hsdef
  have he : (0 : ℝ) < 1e-4 := by norm_num
  have hd : (0 : ℝ) < s + 1e-4 := by linarith
  rw [clipScale, ← hsdef]
  rcases le_or_lt ((0.2 : ℝ) / (s + 1e-4)) 1 with h | h
  · rw [min_eq_right h, div_mul_eq_mul_div, div_lt_iff hd]
    nlinarith
  · rw [min_eq_left h.le, one_mul]
    have hb := (lt_div_iff hd).mp h
    nlinarith

/-- C1: `update(grads, params, lr)` returns the list whose `i`-th entry is
`(w_i - lr*scale*dw_i, b_i - lr*scale*db_i)` where
`scale = min(1.0, 0.2 / (sqrt(T) + 1e-4))` and `T` is the sum over all
gradient pairs of `‖dw‖² + ‖db‖²` (squared Frobenius/Euclidean norms). -/
theorem update_entry_spec (grads params : List PairR) (lr : ℝ)
    (hlen : params.length = grads.length) (i : ℕ) (hi : i < grads.length) :
    (update grads params lr).get? i =
      some (subScaledM
              (lr * min 1 ((0.2 : ℝ) /
                (Real.sqrt ((grads.map (fun g => frobSq g.1 + sumSq g.2)).sum) + 1e-4)))
              (params.getD i ([], [])).1 (grads.getD i ([], [])).1,
            subScaled
              (lr * min 1 ((0.2 : ℝ) /
                (Real.sqrt ((grads.map (fun g => frobSq g.1 + sumSq g.2)).sum) + 1e-4)))
              (params.getD i ([], [])).2 (grads.getD i ([], [])).2) := by
  have hip : i < params.length := by omega
  have hp : params.get? i = some (params.getD i ([], [])) := by
    rw [List.getD_eq_get?]
    cases h : params.get? i with
    | none => rw [List.get?_eq_none] at h; omega
    | some v => rfl
  have hg : grads.get? i = some (grads.getD i ([], [])) := by
    rw [List.getD_eq_get?]
    cases h : grads.get? i with
    | none => rw [List.get?_eq_none] at h; omega
    | some v => rfl
  simp only [update, List.get?_map, zip_get?, hp, hg, clipScale, total_norm_sqr_eq]
  rfl

/-- C1 witness: the theorem applied at a concrete one-layer instance. -/
theorem update_entry_spec_witness :
    ([(([[(1 : ℝ)]], [2]) : PairR)].length = [(([[(3 : ℝ)]], [4]) : PairR)].length) ∧
      0 < [(([[(3 : ℝ)]], [4]) : PairR)].length ∧
      (update [(([[(3 : ℝ)]], [4]) : PairR)] [(([[(1 : ℝ)]], [2]) : PairR)] 5).get? 0 =
        some (subScaledM
                (5 * min 1 ((0.2 : ℝ) /
                  (Real.sqrt (([(([[(3 : ℝ)]], [4]) : PairR)].map
                    (fun g => frobSq g.1 + sumSq g.2)).sum) + 1e-4)))
                (([(([[(1 : ℝ)]], [2]) : PairR)].getD 0 ([], []))).1
                (([(([[(3 : ℝ)]], [4]) : PairR)].getD 0 ([], []))).1,
              subScaled
                (5 * min 1 ((0.2 : ℝ) /
                  (Real.sqrt (([(([[(3 : ℝ)]], [4]) : PairR)].map
                    (fun g => frobSq g.1 + sumSq g.2)).sum) + 1e-4)))
                (([(([[(1 : ℝ)]], [2]) : PairR)].getD 0 ([], []))).2
                (([(([[(3 : ℝ)]], [4]) : PairR)].getD 0 ([], []))).2) :=
  ⟨rfl, by norm_num,
    update_entry_spec [(([[(3 : ℝ)]], [4]) : PairR)] [(([[(1 : ℝ)]], [2]) : PairR)] 5 rfl 0
      (by norm_num)⟩

/-- C2: when the total squared gradient norm `T` is positive, the clip factor
satisfies `scale * sqrt(T) < 0.2`; consequently (for a positive learning
rate) the scaled gradient `lr*scale*grads` that `update` subtracts has total
Euclidean norm strictly less than `lr * 0.2`, and `update` subtracts exactly
that scaled gradient elementwise. -/
theorem update_clip_bound (grads params : List PairR) (lr : ℝ)
    (hT : 0 < total_norm_sqr grads) (hlr : 0 < lr) :
    clipScale grads * Real.sqrt (total_norm_sqr grads) < 0.2 ∧
    Real.sqrt (total_norm_sqr (gradScale (lr * clipScale grads) grads)) < lr * 0.2 ∧
    update grads params lr =
      List.zipWith
        (fun wb g => (List.zipWith (fun r dr => List.zipWith (fun a d => a - d) r dr) wb.1 g.1,
                      List.zipWith (fun a d => a - d) wb.2 g.2))
        params (gradScale (lr * clipScale grads) grads) := by
  have h1 := clipScale_mul_sqrt_lt grads hT
  have hc : 0 < lr * clipScale grads := mul_pos hlr (clipScale_pos grads)
  refine ⟨h1, ?_, update_eq_sub_gradScale _ params grads⟩
  rw [total_norm_sqr_gradScale, Real.sqrt_mul (sq_nonneg _),
    Real.sqrt_sq hc.le]
  calc lr * clipScale grads * Real.sqrt (total_norm_sqr grads)
      = lr * (clipScale grads * Real.sqrt (total_norm_sqr grads)) := by ring
    _ < lr * 0.2 := by exact mul_lt_mul_of_pos_left h1 hlr

/-- C2 witness: the theorem applied at a concrete gradient list with `T = 1`. -/
theorem update_clip_bound_witness :
    0 < total_norm_sqr [(([] : MatR), [(1 : ℝ)])] ∧ (0 : ℝ) < 1 ∧
    (clipScale [(([] : MatR), [(1 : ℝ)])] *
        Real.sqrt (total_norm_sqr [(([] : MatR), [(1 : ℝ)])]) < 0.2 ∧
      Real.sqrt (total_norm_sqr (gradScale (1 * clipScale [(([] : MatR), [(1 : ℝ)])])
          [(([] : MatR), [(1 : ℝ)])])) < 1 * 0.2 ∧
      update [(([] : MatR), [(1 : ℝ)])] ([] : List PairR) 1 =
        List.zipWith
          (fun wb g => (List.zipWith (fun r dr => List.zipWith (fun a d => a - d) r dr) wb.1 g.1,
                        List.zipWith (fun a d => a - d) wb.2 g.2))
          ([] : List PairR)
          (gradScale (1 * clipScale [(([] : MatR), [(1 : ℝ)])]) [(([] : MatR), [(1 : ℝ)])])) :=
  ⟨by rw [total_norm_sqr_eq]; simp [frobSq, sumSq], by norm_num,
    update_clip_bound [(([] : MatR), [(1 : ℝ)])] ([] : List PairR) 1
      (by rw [total_norm_sqr_eq]; simp [frobSq, sumSq]) (by norm_num)⟩

theorem sumSq_zeros {α : Type} (l : List α) : sumSq (l.map (fun _ => (0 : ℝ))) = 0 := by
  induction l with
  | nil => simp [sumSq]
  | cons a t ih => simp only [sumSq, List.map_cons, List.sum_cons] at ih ⊢; rw [ih]; ring

theorem frobSq_zeros {α : Type} (m : List (List α)) :
    frobSq (m.map (List.map (fun _ => (0 : ℝ)))) = 0 := by
  induction m with
  | nil => simp [frobSq]
  | cons r t ih =>
      simp only [frobSq, List.map_cons, List.sum_cons] at ih ⊢
      rw [ih, sumSq_zeros]
      ring

theorem total_norm_sqr_zeroGrads (params : List PairR) :
    total_norm_sqr (zeroGradsFor params) = 0 := by
  rw [total_norm_sqr_eq]
  induction params with
  | nil => simp [zeroGradsFor]
  | cons wb t ih =>
      simp only [zeroGradsFor, List.map_cons, List.sum_cons] at ih ⊢
      rw [ih, frobSq_zeros, sumSq_zeros]
      ring

theorem clipScale_zeroGrads (params : List PairR) : clipScale (zeroGradsFor params) = 1 := by
  rw [clipScale, total_norm_sqr_zeroGrads, Real.sqrt_zero]
  norm_num

theorem subScaled_self_zeros (c : ℝ) (x : List ℝ) :
    subScaled c x (x.map (fun _ => (0 : ℝ))) = x := by
  induction x with
  | nil => rfl
  | cons a t ih => simp only [subScaled, List.map_cons, List.zipWith_cons_cons] at ih ⊢; rw [ih]; ring_nf

theorem subScaledM_self_zeros (c : ℝ) (w : MatR) :
    subScaledM c w (w.map (List.map (fun _ => (0 : ℝ)))) = w := by
  induction w with
  | nil => rfl
  | cons r t ih =>
      simp only [subScaledM, List.map_cons, List.zipWith_cons_cons] at ih ⊢
      rw [ih, subScaled_self_zeros]

/-- C8: on gradients that are zero arrays of the parameters' shapes, the clip
scale evaluates to `1` and `update` returns the parameters unchanged. -/
theorem map_zip_zeroGrads (c : ℝ) (params : List PairR) :
    (params.zip (zeroGradsFor params)).map
        (fun pg => (subScaledM c pg.1.1 pg.2.1, subScaled c pg.1.2 pg.2.2)) = params := by
  induction params with
  | nil => rfl
  | cons wb t ih =>
      have h1 : zeroGradsFor (wb :: t) =
          (wb.1.map (List.map (fun _ => (0 : ℝ))), wb.2.map (fun _ => (0 : ℝ))) ::
            zeroGradsFor t := rfl
      simp only [h1, List.zip_cons_cons, List.map_cons, subScaledM_self_zeros,
        subScaled_self_zeros, ih, Prod.mk.eta]

theorem update_zero_grads (params : List PairR) (lr : ℝ) (grads : List PairR)
    (h : grads = zeroGradsFor params) :
    clipScale grads = 1 ∧ update grads params lr = params :=
  h ▸ ⟨clipScale_zeroGrads params, map_zip_zeroGrads _ params⟩

/-- C8 witness: the theorem applied at a concrete one-layer parameter list. -/
theorem update_zero_grads_witness :
    ([(([[(0 : ℝ)]], [0]) : PairR)] = zeroGradsFor [(([[(1 : ℝ)]], [2]) : PairR)]) ∧
      (clipScale [(([[(0 : ℝ)]], [0]) : PairR)] = 1 ∧
        update [(([[(0 : ℝ)]], [0]) : PairR)] [(([[(1 : ℝ)]], [2]) : PairR)] 7 =
          [(([[(1 : ℝ)]], [2]) : PairR)]) :=
  ⟨rfl, update_zero_grads [(([[(1 : ℝ)]], [2]) : PairR)] 7 [(([[(0 : ℝ)]], [0]) : PairR)] rfl⟩

/- ### Rational-valued part of the agent: `reset`, `policy`, `__call__` -/

/-- A weight matrix over `ℚ`: a list of rows. -/
abbrev MatQ := List (List ℚ)

/-- A `(weight, bias)` pair over `ℚ`. -/
abbrev PairQ := MatQ × List ℚ

/-- Model of `init_random_params(scale, layer_sizes, rng)` from `reset`, with numpy's
external `rng.randn` taken as explicit generator functions `randn` (matrix
of shape `(m, n)`) and `randnV` (vector of length `n`):
`[(scale * rng.randn(m, n), scale * rng.randn(n)) for m, n in
zip(layer_sizes[:-1], layer_sizes[1:])]`. -/
def init_random_params (randn : ℕ → ℕ → MatQ) (randnV : ℕ → List ℚ)
    (scale : ℚ) (layer_sizes : List ℕ) : List PairQ :=
  (layer_sizes.dropLast.zip layer_sizes.tail).map
    (fun mn => ((randn mn.1 mn.2).map (List.map (fun x => scale * x)),
                (randnV mn.2).map (fun x => scale * x)))

/-- The two networks built by `reset`: the actor `self.params` from
`layer_sizes = [env_state_size, 128, 128, len(action_space)]` and the critic
`self.value_params` from `[env_state_size, 128, 128, 1]`, both with
`param_scale = 0.1`. -/
def reset_networks (randn : ℕ → ℕ → MatQ) (randnV : ℕ → List ℚ)
    (env_state_size num_actions : ℕ) : List PairQ × List PairQ :=
  (init_random_params randn randnV (0.1 : ℚ) [env_state_size, 128, 128, num_actions],
   init_random_params randn randnV (0.1 : ℚ) [env_state_size, 128, 128, 1])

/-- A matrix has `r` rows, each of length `c`. -/
def matShape (m : MatQ) (r c : ℕ) : Prop := m.length = r ∧ ∀ row ∈ m, row.length = c

/-- A `(weight, bias)` layer pair has weight shape `(r, c)` and bias shape `(c,)`. -/
def pairShape (p : PairQ) (r c : ℕ) : Prop := matShape p.1 r c ∧ p.2.length = c

theorem pairShape_smul (s : ℚ) (m : MatQ) (b : List ℚ) (r c : ℕ)
    (hm : m.length = r) (hrow : ∀ row ∈ m, row.length = c) (hb : b.length = c) :
    pairShape (m.map (List.map (fun x => s * x)), b.map (fun x => s * x)) r c := by
  refine ⟨⟨by simpa using hm, ?_⟩, by simpa using hb⟩
  intro row hr
  simp only [List.mem_map] at hr
  obtain ⟨r0, hr0, rfl⟩ := hr
  simpa using hrow r0 hr0

/-- C3: after `reset`, the agent holds two networks: the actor parameters are
exactly three `(weight, bias)` pairs of shapes `(S,128)`, `(128,128)`,
`(128,A)` and the critic parameters are exactly three pairs of shapes
`(S,128)`, `(128,128)`, `(128,1)`, provided the external `randn` generator
returns arrays of the requested shapes. -/
theorem reset_network_shapes (randn : ℕ → ℕ → MatQ) (randnV : ℕ → List ℚ) (S A : ℕ)
    (hr : ∀ m n, (randn m n).length = m)
    (hrr : ∀ m n, ∀ row ∈ randn m n, row.length = n)
    (hv : ∀ n, (randnV n).length = n) :
    (reset_networks randn randnV S A).1.length = 3 ∧
    (reset_networks randn randnV S A).2.length = 3 ∧
    pairShape ((reset_networks randn randnV S A).1.getD 0 ([], [])) S 128 ∧
    pairShape ((reset_networks randn randnV S A).1.getD 1 ([], [])) 128 128 ∧
    pairShape ((reset_networks randn randnV S A).1.getD 2 ([], [])) 128 A ∧
    pairShape ((reset_networks randn randnV S A).2.getD 0 ([], [])) S 128 ∧
    pairShape ((reset_networks randn randnV S A).2.getD 1 ([], [])) 128 128 ∧
    pairShape ((reset_networks randn randnV S A).2.getD 2 ([], [])) 128 1 :=
  ⟨rfl, rfl,
    pairShape_smul _ _ _ _ _ (hr S 128) (hrr S 128) (hv 128),
    pairShape_smul _ _ _ _ _ (hr 128 128) (hrr 128 128) (hv 128),
    pairShape_smul _ _ _ _ _ (hr 128 A) (hrr 128 A) (hv A),
    pairShape_smul _ _ _ _ _ (hr S 128) (hrr S 128) (hv 128),
    pairShape_smul _ _ _ _ _ (hr 128 128) (hrr 128 128) (hv 128),
    pairShape_smul _ _ _ _ _ (hr 128 1) (hrr 128 1) (hv 1)⟩

/-- C3 witness: the theorem applied to a generator producing zero arrays of
the requested shapes, with `env_state_size = 4` and two actions. -/
theorem reset_network_shapes_witness :
    (∀ m n, ((fun m n => List.replicate m (List.replicate n (0 : ℚ))) m n).length = m) ∧
    (∀ m n, ∀ row ∈ (fun m n => List.replicate m (List.replicate n (0 : ℚ))) m n,
        row.length = n) ∧
    (∀ n, ((fun n => List.replicate n (0 : ℚ)) n).length = n) ∧
    ((reset_networks (fun m n => List.replicate m (List.replicate n (0 : ℚ)))
        (fun n => List.replicate n (0 : ℚ)) 4 2).1.length = 3 ∧
      (reset_networks (fun m n => List.replicate m (List.replicate n (0 : ℚ)))
        (fun n => List.replicate n (0 : ℚ)) 4 2).2.length = 3 ∧
      pairShape ((reset_networks (fun m n => List.replicate m (List.replicate n (0 : ℚ)))
        (fun n => List.replicate n (0 : ℚ)) 4 2).1.getD 0 ([], [])) 4 128 ∧
      pairShape ((reset_networks (fun m n => List.replicate m (List.replicate n (0 : ℚ)))
        (fun n => List.replicate n (0 : ℚ)) 4 2).1.getD 1 ([], [])) 128 128 ∧
      pairShape ((reset_networks (fun m n => List.replicate m (List.replicate n (0 : ℚ)))
        (fun n => List.replicate n (0 : ℚ)) 4 2).1.getD 2 ([], [])) 128 2 ∧
      pairShape ((reset_networks (fun m n => List.replicate m (List.replicate n (0 : ℚ)))
        (fun n => List.replicate n (0 : ℚ)) 4 2).2.getD 0 ([], [])) 4 128 ∧
      pairShape ((reset_networks (fun m n => List.replicate m (List.replicate n (0 : ℚ)))
        (fun n => List.replicate n (0 : ℚ)) 4 2).2.getD 1 ([], [])) 128 128 ∧
      pairShape ((reset_networks (fun m n => List.replicate m (List.replicate n (0 : ℚ)))
        (fun n => List.replicate n (0 : ℚ)) 4 2).2.getD 2 ([], [])) 128 1) :=
  ⟨fun m n => List.length_replicate m _,
   fun m n row hrow => by rw [List.eq_of_mem_replicate hrow]; exact List.length_replicate n _,
   fun n => List.length_replicate n _,
   reset_network_shapes _ _ 4 2
     (fun m n => List.length_replicate m _)
     (fun m n row hrow => by rw [List.eq_of_mem_replicate hrow]; exact List.length_replicate n _)
     (fun n => List.length_replicate n _)⟩

/-- Model of `jax.nn.relu`. -/
def relu (x : ℚ) : ℚ := max x 0

/-- Dot product of two vectors. -/
def vdot (a b : List ℚ) : ℚ := (List.zipWith (fun x y => x * y) a b).sum

/-- Model of `jnp.dot(activations, w)` for a vector `activations` and matrix `w`. -/
def dotVM (v : List ℚ) (w : MatQ) : List ℚ := w.transpose.map (vdot v)

/-- One affine layer `jnp.dot(activations, w) + b`. -/
def affine (acts : List ℚ) (wb : PairQ) : List ℚ :=
  List.zipWith (fun x y => x + y) (dotVM acts wb.1) wb.2

/-- Model of `Deep_Arm_rbdl.policy(state, params)`: the loop over `params[:-1]` applies
an affine layer followed by `relu`; the final pair applies the affine layer
only, returning the unnormalized logits.  `params[-1]` raises on an empty
parameter list, modelled by `none`. -/
def policy (state : List ℚ) (params : List PairQ) : Option (List ℚ) :=
  let activations := params.dropLast.foldl (fun acts p => (affine acts p).map relu) state
  match params.getLast? with
  | none => none
  | some wb => some (affine activations wb)

/-- Model of `Deep_Arm_rbdl.__call__(state, params)`: stores and returns
`self.policy(state, params)`. -/
def callPolicy (state : List ℚ) (params : List PairQ) : Option (List ℚ) :=
  policy state params

/-- The spec's reading of the network: a feed-forward composition of affine
layers with ReLU applied after every layer except the last, returning the
final affine output with no softmax. -/
def policySpecNet (state : List ℚ) : List PairQ → Option (List ℚ)
  | [] => none
  | [wb] => some (affine state wb)
  | wb :: w2 :: rest => policySpecNet ((affine state wb).map relu) (w2 :: rest)

theorem policy_eq_policySpecNet :
    ∀ (params : List PairQ) (state : List ℚ), policy state params = policySpecNet state params
  | [], _ => rfl
  | [_], _ => rfl
  | wb :: w2 :: rest, state => by
      rw [policySpecNet, ← policy_eq_policySpecNet (w2 :: rest) ((affine state wb).map relu)]
      simp only [policy, List.dropLast_cons₂, List.foldl_cons, List.getLast?_cons_cons]

/-- C4: `policy` is the feed-forward composition of affine layers with ReLU
after every layer except the last (no softmax on the output), and `__call__`
returns exactly `policy(state, params)`. -/
theorem policy_feedforward_spec (state : List ℚ) (params : List PairQ) :
    policy state params = policySpecNet state params ∧
    callPolicy state params = policy state params :=
  ⟨policy_eq_policySpecNet params state, rfl⟩

/- ### `feed`: per-step reward/gradient bookkeeping -/

/-- The agent attributes read and written by `feed`. -/
structure AgentSt where
  state : List ℚ
  probs : List ℚ
  action : ℕ
  episode_rewards : List ℚ
  episode_grads : List MatQ
  current_episode_length : ℕ

/-- Model of `softmax_grad(softmax)`: the Jacobian `diagflat(s) - s @ s.T`, with entry
`(i, j)` equal to `δ_ij s_i - s_i s_j`. -/
def softmax_grad (s : List ℚ) : MatQ :=
  (List.range s.length).map (fun i =>
    (List.range s.length).map (fun j =>
      (if i = j then s.getD i 0 else 0) - s.getD i 0 * s.getD j 0))

/-- The gradient computed by `feed`:
`dsoftmax = softmax_grad(self.probs)[self.action, :]`,
`dlog = dsoftmax / self.probs[self.action]`,
`grad = self.state.reshape(-1, 1) @ dlog.reshape(1, -1)` (an outer product). -/
def feedGrad (a : AgentSt) : MatQ :=
  let dsoftmax := (softmax_grad a.probs).getD a.action []
  let dlog := dsoftmax.map (fun x => x / a.probs.getD a.action 0)
  a.state.map (fun si => dlog.map (fun dj => si * dj))

/-- Model of `feed(reward)`: stores `reward` and the computed gradient at index
`current_episode_length` (via `jax.ops.index_update`) and increments
`current_episode_length` by one. -/
def feed (a : AgentSt) (reward : ℚ) : AgentSt :=
  { a with
    episode_rewards := a.episode_rewards.set a.current_episode_length reward
    episode_grads := a.episode_grads.set a.current_episode_length (feedGrad a)
    current_episode_length := a.current_episode_length + 1 }

theorem softmax_grad_getD (s : List ℚ) (i : ℕ) (h : i < s.length) :
    (softmax_grad s).getD i [] =
      (List.range s.length).map
        (fun j => (if i = j then s.getD i 0 else 0) - s.getD i 0 * s.getD j 0) := by
  rw [List.getD_eq_get?, softmax_grad, List.get?_map, List.get?_range h]
  rfl

/-- C10: `feed(reward)` writes `reward` into `episode_rewards` and the
computed policy gradient into `episode_grads`, both at index
`k = current_episode_length` (its value before the call), increments
`current_episode_length` by exactly one, and leaves every other entry, the
buffer lengths, and the gradient row shapes unchanged. -/
theorem feed_spec (a : AgentSt) (reward : ℚ)
    (hk : a.current_episode_length < a.episode_rewards.length)
    (hkg : a.current_episode_length < a.episode_grads.length)
    (ha : a.action < a.probs.length) :
    (feed a reward).episode_rewards.get? a.current_episode_length = some reward ∧
    (feed a reward).episode_grads.get? a.current_episode_length = some (feedGrad a) ∧
    (feed a reward).current_episode_length = a.current_episode_length + 1 ∧
    (∀ j, j ≠ a.current_episode_length →
      (feed a reward).episode_rewards.get? j = a.episode_rewards.get? j ∧
      (feed a reward).episode_grads.get? j = a.episode_grads.get? j) ∧
    (feed a reward).episode_rewards.length = a.episode_rewards.length ∧
    (feed a reward).episode_grads.length = a.episode_grads.length ∧
    (feed a reward).state = a.state ∧
    (feed a reward).probs = a.probs ∧
    (feedGrad a).length = a.state.length ∧
    (∀ row ∈ feedGrad a, row.length = a.probs.length) := by
  refine ⟨List.get?_set_eq_of_lt reward hk, List.get?_set_eq_of_lt (feedGrad a) hkg, rfl,
    ?_, by simp [feed], by simp [feed], rfl, rfl, by simp [feedGrad], ?_⟩
  · intro j hj
    exact ⟨List.get?_set_ne _ _ (Ne.symm hj), List.get?_set_ne _ _ (Ne.symm hj)⟩
  · intro row hrow
    simp only [feedGrad, List.mem_map] at hrow
    obtain ⟨si, _, rfl⟩ := hrow
    rw [List.length_map, List.length_map, softmax_grad_getD _ _ ha, List.length_map,
      List.length_range]

/-- A concrete agent state at which `feed` is exercised. -/
def feedWitnessAgent : AgentSt :=
  { state := [1, 2], probs := [1/2, 1/2], action := 0,
    episode_rewards := [0, 0, 0], episode_grads := [[], [], []],
    current_episode_length := 1 }

/-- C10 witness: the theorem applied at a concrete agent state. -/
theorem feed_spec_witness :
    feedWitnessAgent.current_episode_length < feedWitnessAgent.episode_rewards.length ∧
    feedWitnessAgent.current_episode_length < feedWitnessAgent.episode_grads.length ∧
    feedWitnessAgent.action < feedWitnessAgent.probs.length ∧
    ((feed feedWitnessAgent 5).episode_rewards.get? feedWitnessAgent.current_episode_length =
        some 5 ∧
      (feed feedWitnessAgent 5).episode_grads.get? feedWitnessAgent.current_episode_length =
        some (feedGrad feedWitnessAgent) ∧
      (feed feedWitnessAgent 5).current_episode_length =
        feedWitnessAgent.current_episode_length + 1 ∧
      (∀ j, j ≠ feedWitnessAgent.current_episode_length →
        (feed feedWitnessAgent 5).episode_rewards.get? j =
          feedWitnessAgent.episode_rewards.get? j ∧
        (feed feedWitnessAgent 5).episode_grads.get? j =
          feedWitnessAgent.episode_grads.get? j) ∧
      (feed feedWitnessAgent 5).episode_rewards.length =
        feedWitnessAgent.episode_rewards.length ∧
      (feed feedWitnessAgent 5).episode_grads.length =
        feedWitnessAgent.episode_grads.length ∧
      (feed feedWitnessAgent 5).state = feedWitnessAgent.state ∧
      (feed feedWitnessAgent 5).probs = feedWitnessAgent.probs ∧
      (feedGrad feedWitnessAgent).length = feedWitnessAgent.state.length ∧
      (∀ row ∈ feedGrad feedWitnessAgent, row.length = feedWitnessAgent.probs.length)) :=
  ⟨by decide, by decide, by decide,
    feed_spec feedWitnessAgent 5 (by decide) (by decide) (by decide)⟩

end Deep_Arm_rbdl

namespace ObdlRender

/-- A roll-pitch-yaw triple. -/
abbrev Vec3 := ℚ × ℚ × ℚ

/-- The fields of the robot model dictionary used by the renderer:
`model['parent']`, `model['jtype']`, `model['jaxis']`. -/
structure RModel where
  parent : List ℤ
  jtype : List ℤ
  jaxis : List Char

/-- The fields of `RenderObject` used by `step_render` / `transform_pos` /
`move_obj`. -/
structure RenderObject where
  origin : List ℚ
  parent_joint : ℤ
  position : List ℚ
  quat : List ℚ
  body_id : ℤ

/-- The `RenderObject.__init__` field defaults. -/
def RenderObject.init : RenderObject :=
  { origin := [0, 0, 0], parent_joint := -1, position := [0, 0, 0],
    quat := [0, 0, 0, 1], body_id := -1 }

/-- numpy row indexing with python semantics: a negative index counts from
the end of the array. -/
def pyGet3 (l : List Vec3) (i : ℤ) : Vec3 :=
  if 0 ≤ i then l.getD i.toNat (0, 0, 0) else l.getD (l.length - (-i).toNat) (0, 0, 0)

/-- The body of one iteration of the `transform_rpy` loop: the value the
iteration writes to `self.j_rpys[i]`.  `_pid = parent[i] - 1`;
`_rpy` starts as a copy of `j_rpys[_pid]`; for `i == 0` a revolute joint
(`jtype == 0`) sets the component selected by `jaxis[0]` to `q[0]`; for
`i > 0` a revolute joint adds `q[i]` to the parent's component for axes
`x`/`y`/`z` and subtracts it for axes `a`/`b`/`c`. -/
def rpyAt (model : RModel) (q : List ℚ) (j : List Vec3) (i : ℕ) : Vec3 :=
  let pid : ℤ := model.parent.getD i 0 - 1
  let r := pyGet3 j pid
  if i = 0 then
    if model.jtype.getD 0 1 = 0 then
      if model.jaxis.getD 0 ' ' = 'x' then (q.getD 0 0, r.2.1, r.2.2)
      else if model.jaxis.getD 0 ' ' = 'y' then (r.1, q.getD 0 0, r.2.2)
      else if model.jaxis.getD 0 ' ' = 'z' then (r.1, r.2.1, q.getD 0 0)
      else r
    else r
  else
    if model.jtype.getD i 1 = 0 then
      if model.jaxis.getD i ' ' = 'x' then (r.1 + q.getD i 0, r.2.1, r.2.2)
      else if model.jaxis.getD i ' ' = 'y' then (r.1, r.2.1 + q.getD i 0, r.2.2)
      else if model.jaxis.getD i ' ' = 'z' then (r.1, r.2.1, r.2.2 + q.getD i 0)
      else if model.jaxis.getD i ' ' = 'a' then (r.1 - q.getD i 0, r.2.1, r.2.2)
      else if model.jaxis.getD i ' ' = 'b' then (r.1, r.2.1 - q.getD i 0, r.2.2)
      else if model.jaxis.getD i ' ' = 'c' then (r.1, r.2.1, r.2.2 - q.getD i 0)
      else r
    else r

/-- The `for i in range(NL)` loop of `transform_rpy`, starting from
`j_rpys = np.zeros((NL, 3))` and writing `j_rpys[i]` at step `i`. -/
def j_rpys_of (model : RModel) (NL : ℕ) (q : List ℚ) : List Vec3 :=
  (List.range NL).foldl (fun j i => j.set i (rpyAt model q j i))
    (List.replicate NL (0, 0, 0))

/-- Model of `transform_rpy(model, q)`: after the loop the method executes
`self.rpys = self.j_rpys`; the pair is `(rpys, j_rpys)`. -/
def transform_rpy (model : RModel) (NL : ℕ) (q : List ℚ) : List Vec3 × List Vec3 :=
  (j_rpys_of model NL q, j_rpys_of model NL q)

/-- Model of `transform_pos(model, obj, q)` with the external library functions as
parameters: `pos = CalcBodyToBaseCoordinates(model, q, obj.parent_joint + 1,
obj.origin.flatten())` and `qua = p.getQuaternionFromEuler(rpys[obj.parent_joint])`.
`obj.origin` is already stored flat in this embedding. -/
def transform_pos (calcBodyToBase : RModel → List ℚ → ℤ → List ℚ → List ℚ)
    (quatFromEuler : Vec3 → List ℚ)
    (rpys : List Vec3) (model : RModel) (obj : RenderObject) (q : List ℚ) :
    List ℚ × List ℚ :=
  (calcBodyToBase model q (obj.parent_joint + 1) obj.origin,
   quatFromEuler (pyGet3 rpys obj.parent_joint))

/-- Model of `move_obj(obj)`: the payload handed to
`p.resetBasePositionAndOrientation(obj.body_id, obj.position, obj.quat)`. -/
def move_obj (o : RenderObject) : ℤ × List ℚ × List ℚ :=
  (o.body_id, o.position, o.quat)

/-- Model of `step_render(targetQ)`: recomputes `rpys` via `transform_rpy`, then for
every render object whose `parent_joint` is not `0` (objects with
`parent_joint == 0` are skipped by `continue`) assigns the pose computed by
`transform_pos`; finally every object's pose is sent to the engine through
`move_obj`.  Returns the updated object list and the list of engine calls. -/
def step_render (calcBodyToBase : RModel → List ℚ → ℤ → List ℚ → List ℚ)
    (quatFromEuler : Vec3 → List ℚ)
    (model : RModel) (NL : ℕ) (objs : List RenderObject) (targetQ : List ℚ) :
    List RenderObject × List (ℤ × List ℚ × List ℚ) :=
  let rpys := (transform_rpy model NL targetQ).1
  let objs2 := objs.map (fun o =>
    if o.parent_joint = 0 then o
    else
      { o with
        position := (transform_pos calcBodyToBase quatFromEuler rpys model o targetQ).1
        quat := (transform_pos calcBodyToBase quatFromEuler rpys model o targetQ).2 })
  (objs2, objs2.map move_obj)

/-- C6: the position returned by `transform_pos` is exactly the flattened
result of the external `CalcBodyToBaseCoordinates(model, q, obj.parent_joint + 1,
obj.origin)` — no forward-kinematics position arithmetic is performed here —
and the quaternion is the Euler-to-quaternion conversion of
`rpys[obj.parent_joint]`.  The statement holds for every behaviour of the
external functions. -/
theorem transform_pos_spec (calcBodyToBase : RModel → List ℚ → ℤ → List ℚ → List ℚ)
    (quatFromEuler : Vec3 → List ℚ)
    (rpys : List Vec3) (model : RModel) (obj : RenderObject) (q : List ℚ) :
    (transform_pos calcBodyToBase quatFromEuler rpys model obj q).1 =
        calcBodyToBase model q (obj.parent_joint + 1) obj.origin ∧
      (transform_pos calcBodyToBase quatFromEuler rpys model obj q).2 =
        quatFromEuler (pyGet3 rpys obj.parent_joint) :=
  ⟨rfl, rfl⟩

/- ### The `transform_rpy` loop invariant -/

/-- The first `m` iterations of the `transform_rpy` loop. -/
def rpyIter (model : RModel) (q : List ℚ) (NL m : ℕ) : List Vec3 :=
  (List.range m).foldl (fun j i => j.set i (rpyAt model q j i))
    (List.replicate NL (0, 0, 0))

theorem j_rpys_of_eq_rpyIter (model : RModel) (NL : ℕ) (q : List ℚ) :
    j_rpys_of model NL q = rpyIter model q NL NL := rfl

theorem getD_replicate_self {α : Type} (n k : ℕ) (a : α) :
    (List.replicate n a).getD k a = a := by
  rw [List.getD_eq_get?]
  cases h : (List.replicate n a).get? k with
  | none => rfl
  | some b => rw [List.eq_of_mem_replicate (List.get?_mem h)]; rfl

theorem getD_set_ne {α : Type} (l : List α) (i k : ℕ) (v d : α) (h : i ≠ k) :
    (l.set i v).getD k d = l.getD k d := by
  rw [List.getD_eq_get?, List.getD_eq_get?, List.get?_set_ne _ _ h]

theorem getD_set_self {α : Type} (l : List α) (i : ℕ) (v d : α) (h : i < l.length) :
    (l.set i v).getD i d = v := by
  rw [List.getD_eq_get?, List.get?_set_eq_of_lt v h]
  rfl

theorem pyGet3_replicate (n : ℕ) (i : ℤ) :
    pyGet3 (List.replicate n ((0 : ℚ), (0 : ℚ), (0 : ℚ))) i = (0, 0, 0) := by
  unfold pyGet3
  split <;> exact getD_replicate_self n _ _

theorem rpyIter_succ (model : RModel) (q : List ℚ) (NL m : ℕ) :
    rpyIter model q NL (m + 1) =
      (rpyIter model q NL m).set m (rpyAt model q (rpyIter model q NL m) m) := by
  rw [rpyIter, List.range_succ, List.foldl_append]
  rfl

theorem rpyIter_length (model : RModel) (q : List ℚ) (NL m : ℕ) :
    (rpyIter model q NL m).length = NL := by
  induction m with
  | zero => exact List.length_replicate NL _
  | succ m ih => rw [rpyIter_succ, List.length_set]; exact ih

theorem rpyIter_getD_lt (model : RModel) (q : List ℚ) (NL : ℕ) {m k : ℕ}
    (hk : k < m) (hm : m ≤ NL) :
    (rpyIter model q NL m).getD k (0, 0, 0) =
      rpyAt model q (rpyIter model q NL k) k := by
  induction m with
  | zero => omega
  | succ m ih =>
      rw [rpyIter_succ]
      rcases Nat.lt_or_ge k m with h | h
      · rw [getD_set_ne _ _ _ _ _ (by omega)]
        exact ih h (by omega)
      · have hkm : k = m := by omega
        subst hkm
        exact getD_set_self _ _ _ _ (by rw [rpyIter_length]; omega)

theorem rpyAt_eq_read (model : RModel) (q : List ℚ) (j j' : List Vec3) (i : ℕ)
    (h : pyGet3 j (model.parent.getD i 0 - 1) = pyGet3 j' (model.parent.getD i 0 - 1)) :
    rpyAt model q j i = rpyAt model q j' i := by
  simp only [rpyAt]
  rw [h]

theorem j_rpys_getD_rpyAt (model : RModel) (NL : ℕ) (q : List ℚ)
    (hpar : ∀ k, k < NL → 0 ≤ model.parent.getD k 0 ∧ model.parent.getD k 0 ≤ (k : ℤ))
    (hpar1 : ∀ k, k < NL → 0 < k → 1 ≤ model.parent.getD k 0)
    (i : ℕ) (hi : i < NL) (h0 : 0 < i) :
    (j_rpys_of model NL q).getD i (0, 0, 0) =
      rpyAt model q (j_rpys_of model NL q) i := by
  have hp1 := hpar1 i hi h0
  have hp2 := (hpar i hi).2
  have hpid0 : 0 ≤ model.parent.getD i 0 - 1 := by omega
  have hpidlt : (model.parent.getD i 0 - 1).toNat < i := by omega
  rw [j_rpys_of_eq_rpyIter, rpyIter_getD_lt model q NL hi le_rfl]
  apply rpyAt_eq_read
  simp only [pyGet3, if_pos hpid0]
  rw [rpyIter_getD_lt model q NL hpidlt hi.le,
    rpyIter_getD_lt model q NL (by omega : (model.parent.getD i 0 - 1).toNat < NL) le_rfl]

/-- Stated from the claim's wording: the parent's roll-pitch-yaw with the
single component selected by the axis character replaced by the parent's
component plus `qi` for axes `x`/`y`/`z` and minus `qi` for `a`/`b`/`c`;
any other axis character leaves the parent's value unchanged. -/
def axisAdjust (ax : Char) (pv : Vec3) (qi : ℚ) : Vec3 :=
  if ax = 'x' then (pv.1 + qi, pv.2.1, pv.2.2)
  else if ax = 'y' then (pv.1, pv.2.1 + qi, pv.2.2)
  else if ax = 'z' then (pv.1, pv.2.1, pv.2.2 + qi)
  else if ax = 'a' then (pv.1 - qi, pv.2.1, pv.2.2)
  else if ax = 'b' then (pv.1, pv.2.1 - qi, pv.2.2)
  else if ax = 'c' then (pv.1, pv.2.1, pv.2.2 - qi)
  else pv

/-- Stated from the claim's wording for link `0`: only joint `0`'s own axis
component is set to `q0` (axes `x`/`y`/`z`); otherwise the row stays zero. -/
def axisSet0 (ax : Char) (q0 : ℚ) : Vec3 :=
  if ax = 'x' then (q0, 0, 0)
  else if ax = 'y' then (0, q0, 0)
  else if ax = 'z' then (0, 0, q0)
  else (0, 0, 0)

theorem rpyAt_eq_axisAdjust (model : RModel) (q : List ℚ) (J : List Vec3) (i : ℕ)
    (h0 : i ≠ 0) (hp : 0 ≤ model.parent.getD i 0 - 1) :
    rpyAt model q J i =
      if model.jtype.getD i 1 = 0 then
        axisAdjust (model.jaxis.getD i ' ')
          (J.getD (model.parent.getD i 0 - 1).toNat (0, 0, 0)) (q.getD i 0)
      else J.getD (model.parent.getD i 0 - 1).toNat (0, 0, 0) := by
  simp only [rpyAt, axisAdjust, pyGet3, if_pos hp, if_neg h0]

theorem rpyAt_zero (model : RModel) (q : List ℚ) (NL : ℕ) :
    rpyAt model q (List.replicate NL ((0 : ℚ), (0 : ℚ), (0 : ℚ))) 0 =
      if model.jtype.getD 0 1 = 0 then axisSet0 (model.jaxis.getD 0 ' ') (q.getD 0 0)
      else (0, 0, 0) := by
  simp only [rpyAt, axisSet0, pyGet3_replicate, eq_self_iff_true, if_true]

/-- C7: after `transform_rpy(model, q)`, for every link `i > 0` with
`jtype[i] == 0`, `j_rpys[i]` is the parent row `j_rpys[parent[i]-1]` with the
component selected by `jaxis[i]` replaced by the parent's component plus
`q[i]` (axes `x`,`y`,`z`) or minus `q[i]` (axes `a`,`b`,`c`); links with
`jtype[i] != 0` copy the parent row unchanged; for `i == 0` only joint 0's
own axis component is set to `q[0]`; and `rpys` equals `j_rpys` afterwards.
Stated for a well-formed kinematic chain (each link's parent precedes it). -/
theorem transform_rpy_spec (model : RModel) (NL : ℕ) (q : List ℚ)
    (hpl : model.parent.length = NL) (htl : model.jtype.length = NL)
    (hal : model.jaxis.length = NL)
    (hpar : ∀ k, k < NL → 0 ≤ model.parent.getD k 0 ∧ model.parent.getD k 0 ≤ (k : ℤ))
    (hpar1 : ∀ k, k < NL → 0 < k → 1 ≤ model.parent.getD k 0) :
    (transform_rpy model NL q).1 = (transform_rpy model NL q).2 ∧
    (0 < NL →
      (model.jtype.getD 0 1 = 0 →
        (j_rpys_of model NL q).getD 0 (0, 0, 0) =
          axisSet0 (model.jaxis.getD 0 ' ') (q.getD 0 0)) ∧
      (model.jtype.getD 0 1 ≠ 0 → (j_rpys_of model NL q).getD 0 (0, 0, 0) = (0, 0, 0))) ∧
    (∀ i, i < NL → 0 < i →
      (model.jtype.getD i 1 = 0 →
        (j_rpys_of model NL q).getD i (0, 0, 0) =
          axisAdjust (model.jaxis.getD i ' ')
            ((j_rpys_of model NL q).getD (model.parent.getD i 0 - 1).toNat (0, 0, 0))
            (q.getD i 0)) ∧
      (model.jtype.getD i 1 ≠ 0 →
        (j_rpys_of model NL q).getD i (0, 0, 0) =
          (j_rpys_of model NL q).getD (model.parent.getD i 0 - 1).toNat (0, 0, 0))) := by
  refine ⟨rfl, ?_, ?_⟩
  · intro hNL
    have h00 : (j_rpys_of model NL q).getD 0 (0, 0, 0) =
        rpyAt model q (rpyIter model q NL 0) 0 := by
      rw [j_rpys_of_eq_rpyIter]
      exact rpyIter_getD_lt model q NL hNL le_rfl
    have hrep : rpyIter model q NL 0 = List.replicate NL (0, 0, 0) := rfl
    rw [h00, hrep, rpyAt_zero]
    exact ⟨fun ht => by rw [if_pos ht], fun ht => by rw [if_neg ht]⟩
  · intro i hi h0
    have hb := j_rpys_getD_rpyAt model NL q hpar hpar1 i hi h0
    have hp1 := hpar1 i hi h0
    rw [hb, rpyAt_eq_axisAdjust model q _ i (by omega) (by omega)]
    exact ⟨fun ht => by rw [if_pos ht], fun ht => by rw [if_neg ht]⟩

/- ### `step_render` -/

theorem map_getD_of_lt {α β : Type} (f : α → β) (l : List α) (i : ℕ) (d : α) (e : β)
    (hi : i < l.length) : (l.map f).getD i e = f (l.getD i d) := by
  have h : l.get? i = some (l.getD i d) := by
    rw [List.getD_eq_get?]
    cases h : l.get? i with
    | none => rw [List.get?_eq_none] at h; omega
    | some v => rfl
  rw [List.getD_eq_get?, List.get?_map, h]
  rfl

/-- The per-object body of the first loop of `step_render`: objects whose
`parent_joint` is `0` are skipped (`continue`), the others receive the pose
computed by `transform_pos` via `assign_pose`. -/
theorem step_render_objects (calcBodyToBase : RModel → List ℚ → ℤ → List ℚ → List ℚ)
    (quatFromEuler : Vec3 → List ℚ) (model : RModel) (NL : ℕ)
    (objs : List RenderObject) (targetQ : List ℚ) (i : ℕ) (hi : i < objs.length) :
    (step_render calcBodyToBase quatFromEuler model NL objs targetQ).1.getD i
        RenderObject.init =
      (if (objs.getD i RenderObject.init).parent_joint = 0 then
        objs.getD i RenderObject.init
      else
        { objs.getD i RenderObject.init with
          position := (transform_pos calcBodyToBase quatFromEuler
            (transform_rpy model NL targetQ).1 model
            (objs.getD i RenderObject.init) targetQ).1
          quat := (transform_pos calcBodyToBase quatFromEuler
            (transform_rpy model NL targetQ).1 model
            (objs.getD i RenderObject.init) targetQ).2 }) :=
  map_getD_of_lt _ objs i RenderObject.init RenderObject.init hi

/-- C9: `step_render` leaves the stored `position`/`quat` of every object
whose `parent_joint` is `0` unchanged (the pose-update loop skips it) while
still sending the old pose to the engine via `move_obj`; objects with
`parent_joint != 0` get their pose recomputed by `transform_pos`. -/
theorem step_render_skip_spec (calcBodyToBase : RModel → List ℚ → ℤ → List ℚ → List ℚ)
    (quatFromEuler : Vec3 → List ℚ) (model : RModel) (NL : ℕ)
    (objs : List RenderObject) (targetQ : List ℚ) (i : ℕ) (hi : i < objs.length) :
    ((objs.getD i RenderObject.init).parent_joint = 0 →
      (step_render calcBodyToBase quatFromEuler model NL objs targetQ).1.getD i
          RenderObject.init =
        objs.getD i RenderObject.init ∧
      (step_render calcBodyToBase quatFromEuler model NL objs targetQ).2.get? i =
        some (move_obj (objs.getD i RenderObject.init))) ∧
    ((objs.getD i RenderObject.init).parent_joint ≠ 0 →
      ((step_render calcBodyToBase quatFromEuler model NL objs targetQ).1.getD i
          RenderObject.init).position =
        (transform_pos calcBodyToBase quatFromEuler (transform_rpy model NL targetQ).1
          model (objs.getD i RenderObject.init) targetQ).1 ∧
      ((step_render calcBodyToBase quatFromEuler model NL objs targetQ).1.getD i
          RenderObject.init).quat =
        (transform_pos calcBodyToBase quatFromEuler (transform_rpy model NL targetQ).1
          model (objs.getD i RenderObject.init) targetQ).2) := by
  have hobj := step_render_objects calcBodyToBase quatFromEuler model NL objs targetQ i hi
  have hlen : i < (step_render calcBodyToBase quatFromEuler model NL objs targetQ).1.length := by
    simpa [step_render] using hi
  have hsend : (step_render calcBodyToBase quatFromEuler model NL objs targetQ).2.get? i =
      some (move_obj ((step_render calcBodyToBase quatFromEuler model NL objs
        targetQ).1.getD i RenderObject.init)) := by
    have h1 : (step_render calcBodyToBase quatFromEuler model NL objs targetQ).1.get? i =
        some ((step_render calcBodyToBase quatFromEuler model NL objs targetQ).1.getD i
          RenderObject.init) := by
      rw [List.getD_eq_get?]
      cases h : (step_render calcBodyToBase quatFromEuler model NL objs targetQ).1.get? i with
      | none => rw [List.get?_eq_none] at h; omega
      | some v => rfl
    show ((step_render calcBodyToBase quatFromEuler model NL objs targetQ).1.map
        move_obj).get? i = _
    rw [List.get?_map, h1]
    rfl
  constructor
  · intro hpj
    rw [hobj, if_pos hpj] at hsend ⊢
    exact ⟨rfl, hsend⟩
  · intro hpj
    rw [hobj, if_neg hpj]
    exact ⟨rfl, rfl⟩

/-- C9 witness: a base object (`parent_joint = 0`) keeps its stored pose and
is still sent to the engine. -/
theorem step_render_skip_spec_witness :
    0 < ([{ origin := [0, 0, 0], parent_joint := 0, position := [0, 0, 0],
            quat := [0, 0, 0, 1], body_id := 3 }] : List RenderObject).length ∧
    ((([{ origin := [0, 0, 0], parent_joint := 0, position := [0, 0, 0],
          quat := [0, 0, 0, 1], body_id := 3 }] : List RenderObject).getD 0
            RenderObject.init).parent_joint = 0 →
      (step_render (fun _ _ _ _ => [5, 5, 5]) (fun r => [r.1, r.2.1, r.2.2, 1])
          { parent := [0], jtype := [0], jaxis := ['x'] } 1
          [{ origin := [0, 0, 0], parent_joint := 0, position := [0, 0, 0],
             quat := [0, 0, 0, 1], body_id := 3 }] [1]).1.getD 0 RenderObject.init =
        ([{ origin := [0, 0, 0], parent_joint := 0, position := [0, 0, 0],
            quat := [0, 0, 0, 1], body_id := 3 }] : List RenderObject).getD 0
          RenderObject.init ∧
      (step_render (fun _ _ _ _ => [5, 5, 5]) (fun r => [r.1, r.2.1, r.2.2, 1])
          { parent := [0], jtype := [0], jaxis := ['x'] } 1
          [{ origin := [0, 0, 0], parent_joint := 0, position := [0, 0, 0],
             quat := [0, 0, 0, 1], body_id := 3 }] [1]).2.get? 0 =
        some (move_obj (([{ origin := [0, 0, 0], parent_joint := 0, position := [0, 0, 0],
                            quat := [0, 0, 0, 1], body_id := 3 }] : List RenderObject).getD 0
          RenderObject.init))) :=
  ⟨by decide,
    (step_render_skip_spec (fun _ _ _ _ => [5, 5, 5]) (fun r => [r.1, r.2.1, r.2.2, 1])
      { parent := [0], jtype := [0], jaxis := ['x'] } 1
      [{ origin := [0, 0, 0], parent_joint := 0, position := [0, 0, 0],
         quat := [0, 0, 0, 1], body_id := 3 }] [1] 0 (by decide)).1⟩

/-- C5 counterexample input: a single render object attached to the base
joint (`parent_joint = 0`), whose stored position differs from what the
external forward-kinematics function would return. -/
def cexObj : RenderObject :=
  { origin := [0, 0, 0], parent_joint := 0, position := [0, 0, 0],
    quat := [0, 0, 0, 1], body_id := 3 }

/-- C5 is false as stated: `step_render` does not convert and assign a pose
for *every* render object — an object with `parent_joint == 0` keeps its old
pose even when the computed pose differs. -/
theorem step_render_not_all_assigned :
    ¬ (∀ i, i < ([cexObj] : List RenderObject).length →
        ((step_render (fun _ _ _ _ => [5, 5, 5]) (fun r => [r.1, r.2.1, r.2.2, 1])
            { parent := [0], jtype := [0], jaxis := ['x'] } 1 [cexObj] [1]).1.getD i
          RenderObject.init).position =
          (transform_pos (fun _ _ _ _ => [5, 5, 5]) (fun r => [r.1, r.2.1, r.2.2, 1])
            (transform_rpy { parent := [0], jtype := [0], jaxis := ['x'] } 1 [1]).1
            { parent := [0], jtype := [0], jaxis := ['x'] }
            (([cexObj] : List RenderObject).getD i RenderObject.init) [1]).1) := by
  decide

/-- C5 (amended): `step_render(targetQ)` converts the joint angles to a pose
via `transform_rpy` followed by `transform_pos` and assigns it for every
render object whose `parent_joint` is not `0` (objects with
`parent_joint == 0` are skipped), and feeds every object's current pose to
the physics engine through `move_obj`. -/
theorem step_render_spec (calcBodyToBase : RModel → List ℚ → ℤ → List ℚ → List ℚ)
    (quatFromEuler : Vec3 → List ℚ) (model : RModel) (NL : ℕ)
    (objs : List RenderObject) (targetQ : List ℚ) (i : ℕ) (hi : i < objs.length) :
    (step_render calcBodyToBase quatFromEuler model NL objs targetQ).1.length =
        objs.length ∧
    (step_render calcBodyToBase quatFromEuler model NL objs targetQ).2.length =
        objs.length ∧
    ((objs.getD i RenderObject.init).parent_joint ≠ 0 →
      (step_render calcBodyToBase quatFromEuler model NL objs targetQ).1.getD i
          RenderObject.init =
        { objs.getD i RenderObject.init with
          position := (transform_pos calcBodyToBase quatFromEuler
            (transform_rpy model NL targetQ).1 model
            (objs.getD i RenderObject.init) targetQ).1
          quat := (transform_pos calcBodyToBase quatFromEuler
            (transform_rpy model NL targetQ).1 model
            (objs.getD i RenderObject.init) targetQ).2 }) ∧
    (step_render calcBodyToBase quatFromEuler model NL objs targetQ).2.get? i =
      some (move_obj ((step_render calcBodyToBase quatFromEuler model NL objs
        targetQ).1.getD i RenderObject.init)) := by
  have hobj := step_render_objects calcBodyToBase quatFromEuler model NL objs targetQ i hi
  refine ⟨by simp [step_render], by simp [step_render], fun hpj => by rw [hobj, if_neg hpj], ?_⟩
  have h1 : (step_render calcBodyToBase quatFromEuler model NL objs targetQ).1.get? i =
      some ((step_render calcBodyToBase quatFromEuler model NL objs targetQ).1.getD i
        RenderObject.init) := by
    have hlen : i < (step_render calcBodyToBase quatFromEuler model NL objs
        targetQ).1.length := by
      simpa [step_render] using hi
    rw [List.getD_eq_get?]
    cases h : (step_render calcBodyToBase quatFromEuler model NL objs targetQ).1.get? i with
    | none => rw [List.get?_eq_none] at h; omega
    | some v => rfl
  show ((step_render calcBodyToBase quatFromEuler model NL objs targetQ).1.map
      move_obj).get? i = _
  rw [List.get?_map, h1]
  rfl

/-- C5 witness: an arm object (`parent_joint = 1`) receives the pose computed
by `transform_pos` and is sent to the engine. -/
theorem step_render_spec_witness :
    0 < ([{ origin := [0, 0, 0], parent_joint := 1, position := [0, 0, 0],
            quat := [0, 0, 0, 1], body_id := 4 }] : List RenderObject).length ∧
    ((step_render (fun _ _ _ _ => [5, 5, 5]) (fun r => [r.1, r.2.1, r.2.2, 1])
        { parent := [0], jtype := [0], jaxis := ['x'] } 1
        [{ origin := [0, 0, 0], parent_joint := 1, position := [0, 0, 0],
           quat := [0, 0, 0, 1], body_id := 4 }] [1]).1.length = 1 ∧
      (step_render (fun _ _ _ _ => [5, 5, 5]) (fun r => [r.1, r.2.1, r.2.2, 1])
        { parent := [0], jtype := [0], jaxis := ['x'] } 1
        [{ origin := [0, 0, 0], parent_joint := 1, position := [0, 0, 0],
           quat := [0, 0, 0, 1], body_id := 4 }] [1]).2.length = 1 ∧
      ((([{ origin := [0, 0, 0], parent_joint := 1, position := [0, 0, 0],
            quat := [0, 0, 0, 1], body_id := 4 }] : List RenderObject).getD 0
              RenderObject.init).parent_joint ≠ 0 →
        (step_render (fun _ _ _ _ => [5, 5, 5]) (fun r => [r.1, r.2.1, r.2.2, 1])
            { parent := [0], jtype := [0], jaxis := ['x'] } 1
            [{ origin := [0, 0, 0], parent_joint := 1, position := [0, 0, 0],
               quat := [0, 0, 0, 1], body_id := 4 }] [1]).1.getD 0 RenderObject.init =
          { ([{ origin := [0, 0, 0], parent_joint := 1, position := [0, 0, 0],
                quat := [0, 0, 0, 1], body_id := 4 }] : List RenderObject).getD 0
              RenderObject.init with
            position := (transform_pos (fun _ _ _ _ => [5, 5, 5])
              (fun r => [r.1, r.2.1, r.2.2, 1])
              (transform_rpy { parent := [0], jtype := [0], jaxis := ['x'] } 1 [1]).1
              { parent := [0], jtype := [0], jaxis := ['x'] }
              (([{ origin := [0, 0, 0], parent_joint := 1, position := [0, 0, 0],
                   quat := [0, 0, 0, 1], body_id := 4 }] : List RenderObject).getD 0
                RenderObject.init) [1]).1
            quat := (transform_pos (fun _ _ _ _ => [5, 5, 5])
              (fun r => [r.1, r.2.1, r.2.2, 1])
              (transform_rpy { parent := [0], jtype := [0], jaxis := ['x'] } 1 [1]).1
              { parent := [0], jtype := [0], jaxis := ['x'] }
              (([{ origin := [0, 0, 0], parent_joint := 1, position := [0, 0, 0],
                   quat := [0, 0, 0, 1], body_id := 4 }] : List RenderObject).getD 0
                RenderObject.init) [1]).2 }) ∧
      (step_render (fun _ _ _ _ => [5, 5, 5]) (fun r => [r.1, r.2.1, r.2.2, 1])
          { parent := [0], jtype := [0], jaxis := ['x'] } 1
          [{ origin := [0, 0, 0], parent_joint := 1, position := [0, 0, 0],
             quat := [0, 0, 0, 1], body_id := 4 }] [1]).2.get? 0 =
        some (move_obj ((step_render (fun _ _ _ _ => [5, 5, 5])
            (fun r => [r.1, r.2.1, r.2.2, 1])
            { parent := [0], jtype := [0], jaxis := ['x'] } 1
            [{ origin := [0, 0, 0], parent_joint := 1, position := [0, 0, 0],
               quat := [0, 0, 0, 1], body_id := 4 }] [1]).1.getD 0 RenderObject.init))) :=
  ⟨by decide,
    step_render_spec (fun _ _ _ _ => [5, 5, 5]) (fun r => [r.1, r.2.1, r.2.2, 1])
      { parent := [0], jtype := [0], jaxis := ['x'] } 1
      [{ origin := [0, 0, 0], parent_joint := 1, position := [0, 0, 0],
         quat := [0, 0, 0, 1], body_id := 4 }] [1] 0 (by decide)⟩

/-- A concrete two-link model exercising `transform_rpy`. -/
def rpyWitnessModel : RModel := { parent := [0, 1], jtype := [0, 0], jaxis := ['x', 'x'] }

/-- C7 witness: the theorem applied to a concrete two-link revolute chain. -/
theorem transform_rpy_spec_witness :
    rpyWitnessModel.parent.length = 2 ∧ rpyWitnessModel.jtype.length = 2 ∧
    rpyWitnessModel.jaxis.length = 2 ∧
    (∀ k, k < 2 → 0 ≤ rpyWitnessModel.parent.getD k 0 ∧
      rpyWitnessModel.parent.getD k 0 ≤ (k : ℤ)) ∧
    (∀ k, k < 2 → 0 < k → 1 ≤ rpyWitnessModel.parent.getD k 0) ∧
    ((transform_rpy rpyWitnessModel 2 [1, 2]).1 = (transform_rpy rpyWitnessModel 2 [1, 2]).2 ∧
      (0 < 2 →
        (rpyWitnessModel.jtype.getD 0 1 = 0 →
          (j_rpys_of rpyWitnessModel 2 [1, 2]).getD 0 (0, 0, 0) =
            axisSet0 (rpyWitnessModel.jaxis.getD 0 ' ') (([1, 2] : List ℚ).getD 0 0)) ∧
        (rpyWitnessModel.jtype.getD 0 1 ≠ 0 →
          (j_rpys_of rpyWitnessModel 2 [1, 2]).getD 0 (0, 0, 0) = (0, 0, 0))) ∧
      (∀ i, i < 2 → 0 < i →
        (rpyWitnessModel.jtype.getD i 1 = 0 →
          (j_rpys_of rpyWitnessModel 2 [1, 2]).getD i (0, 0, 0) =
            axisAdjust (rpyWitnessModel.jaxis.getD i ' ')
              ((j_rpys_of rpyWitnessModel 2 [1, 2]).getD
                (rpyWitnessModel.parent.getD i 0 - 1).toNat (0, 0, 0))
              (([1, 2] : List ℚ).getD i 0)) ∧
        (rpyWitnessModel.jtype.getD i 1 ≠ 0 →
          (j_rpys_of rpyWitnessModel 2 [1, 2]).getD i (0, 0, 0) =
            (j_rpys_of rpyWitnessModel 2 [1, 2]).getD
              (rpyWitnessModel.parent.getD i 0 - 1).toNat (0, 0, 0)))) :=
  ⟨rfl, rfl, rfl, by decide, by decide,
    transform_rpy_spec rpyWitnessModel 2 [1, 2] rfl rfl rfl (by decide) (by decide)⟩

end ObdlRender
